import Mathlib

/-!
Verification of the `SberDataProcessor` data pipeline
(`src/ml_package_framework/data_processing/data_processors.py`).

The pandas code is shallowly embedded: a DataFrame is modelled either as a
typed list of rows (when the relevant columns are fixed by the pipeline) or
as a list of association-list rows `List (String x Val)` (when a claim is
about columns being added, dropped, or mutated in place).  pandas `NaN` is
an explicit `Val.nan` / `PVal.nan` value; fallible functions return
`Except`.  Each definition is translated from the corresponding Python
function; comments on the definitions point back to the source lines.
-/

namespace Sber

/-- A pandas cell value: an integer, a string, or NaN (missing). -/
inductive Val where
  | i : Int → Val
  | s : String → Val
  | nan : Val
  deriving DecidableEq

/-- A DataFrame row as an association list from column name to value.
Column order is the pandas column order. -/
abbrev ARow := List (String × Val)

/-- A DataFrame as a list of association-list rows (all rows of a real
DataFrame share one column list; claims needing that state it). -/
abbrev ATable := List ARow

/-- Read a column of a row / a key of a mapping (first match). -/
def tblLookup {κ β : Type} [DecidableEq κ] (k : κ) : List (κ × β) → Option β
  | [] => none
  | p :: ps => if p.1 = k then some p.2 else tblLookup k ps

/-- `df[c] = v` restricted to one row: replace the value of column `c`
if present, otherwise append the new column at the end (pandas appends
newly created columns after the existing ones). -/
def setColRow (c : String) (v : Val) (r : ARow) : ARow :=
  if (tblLookup c r).isSome then
    r.map (fun p => if p.1 = c then (c, v) else p)
  else
    r ++ [(c, v)]

/-- `df[c] = series`: assign the values positionally (the pipeline only
assigns freshly-built series whose RangeIndex coincides with the frame
index); rows beyond the series length receive NaN, exactly as pandas
index alignment produces for absent index labels. -/
def setCol : String → List Val → ATable → ATable
  | _, _, [] => []
  | c, [], r :: rs => setColRow c Val.nan r :: setCol c [] rs
  | c, v :: vs, r :: rs => setColRow c v r :: setCol c vs rs

/-- `df.drop(c, axis=1)` restricted to one row. -/
def eraseCol (c : String) (r : ARow) : ARow :=
  r.filter (fun p => !decide (p.1 = c))

/- ------------------------------------------------------------------
`load_data` (data_processors.py lines 69-79):
`file_extension = path.split(".")[-1]`, dispatch on `"csv"` / `"json"`,
otherwise `raise ValueError`.  Paths are modelled as character lists and
`str.split(".")` is translated literally. -/

/-- Python `s.split(".")` on a character list: splits at every dot and
keeps empty segments; the result is never empty. -/
def splitDot : List Char → List (List Char)
  | [] => [[]]
  | ch :: rest =>
    if ch = '.' then [] :: splitDot rest
    else
      match splitDot rest with
      | [] => [[ch]]
      | seg :: segs => (ch :: seg) :: segs

/-- `path.split(".")[-1]`: the last dot-separated segment (for a dot-free
path this is the whole path, since Python split returns `[path]`). -/
def fileExtension (path : List Char) : List Char :=
  (splitDot path).getLastD []

/-- Result of `load_data`: which pandas reader is invoked, or the
`ValueError` for an unsupported extension (carrying the extension text
that the error message interpolates). -/
inductive LoadResult where
  | csv : LoadResult
  | json : LoadResult
  | unsupported : List Char → LoadResult
  deriving DecidableEq

/-- `SberDataProcessor.load_data`, lines 69-79: dispatch on the last
`"."`-separated segment of the path, case-sensitively. -/
def load_data (path : List Char) : LoadResult :=
  let file_extension := fileExtension path
  if file_extension = "csv".toList then LoadResult.csv
  else if file_extension = "json".toList then LoadResult.json
  else LoadResult.unsupported file_extension

/- ------------------------------------------------------------------
`add_purchase_counter` (lines 159-168), `merge_and_filter` (lines 358-363)
and `calculate_total_ordered` (lines 391-393) all contain an in-place
column assignment `df[...] = series` on the caller's table.  Each is
modelled twice: `X_effect` is the caller-visible state of the argument
table after the call (the in-place assignment), and the plain function is
the returned table. -/

/-- `df.groupby(["user_id"]).cumcount()` over an explicit key list:
`keyCount k seen` is how many earlier rows carried the same key. -/
def keyCount (k : Option Val) (l : List (Option Val)) : Nat :=
  l.countP (fun x => decide (x = k))

/-- Running cumulative count: position `i` receives the number of previous
keys equal to key `i`. -/
def cumcountFrom : List (Option Val) → List (Option Val) → List Nat
  | _, [] => []
  | seen, k :: ks => keyCount k seen :: cumcountFrom (k :: seen) ks

def cumcount (keys : List (Option Val)) : List Nat := cumcountFrom [] keys

/-- Line 166, `df["order_number"] = df.groupby(["user_id"]).cumcount()`:
the caller's table after `add_purchase_counter` mutated it in place.
(pandas groups on the value of the `user_id` column; rows whose `user_id`
is NaN form a dropped group, which the theorems exclude by hypothesis.) -/
def add_purchase_counter_effect (df : ATable) : ATable :=
  setCol "order_number"
    ((cumcount (df.map (fun r => tblLookup "user_id" r))).map (fun n => Val.i (Int.ofNat n))) df

/-- Lines 166-168: the table returned by `add_purchase_counter` — the
mutated table with `order_completed_at` dropped (`df.drop(..., axis=1)`
allocates the returned copy; the caller's object keeps the column). -/
def add_purchase_counter (df : ATable) : ATable :=
  (add_purchase_counter_effect df).map (eraseCol "order_completed_at")

/-- Line 359, `train_df["target"] = df_incl_last["target"].astype(int)`:
the caller's `train_df` after `merge_and_filter` mutated it in place.
`astype(int)` preserves the 0/1 integers the pipeline feeds it; the
aliasing property proved below does not depend on the values. -/
def merge_and_filter_effect (train_df df_incl_last : ATable) : ATable :=
  setCol "target" (df_incl_last.map (fun r => (tblLookup "target" r).getD Val.nan)) train_df

/-- Integer addition of cell values; any non-integer operand poisons the
sum to NaN (the pipeline only sums integer `ordered` cells). -/
def valAdd : Val → Val → Val
  | Val.i a, Val.i b => Val.i (a + b)
  | _, _ => Val.nan

/-- Line 391, `train_df.groupby("category")["ordered"].sum()` evaluated at
one category value: the sum of the `ordered` cells of the rows whose
`category` cell equals `c`. -/
def groupOrderedSum (t : ATable) (c : Option Val) : Val :=
  (t.filter (fun r => decide (tblLookup "category" r = c))).foldl
    (fun acc r => valAdd acc ((tblLookup "ordered" r).getD Val.nan)) (Val.i 0)

/-- Lines 391-393, `train_df["total_ordered"] = train_df["category"].map(total_ordered)`:
the caller's `train_df` after `calculate_total_ordered` mutated it in
place (which is also the table it returns). -/
def calculate_total_ordered_effect (train_df : ATable) : ATable :=
  setCol "total_ordered"
    (train_df.map (fun r => groupOrderedSum train_df (tblLookup "category" r))) train_df

/- ------------------------------------------------------------------
`calculate_features` (lines 309-317):
`order_number = df_incl_last[["user_id","order_number"]].set_index("user_id").squeeze()`
followed by `train_df["user_id"].map(order_number)`, the `rating`
division and the `id` concatenation on a copy of the history table. -/

/-- A history long-table row (`df_ex_last_flatten`): `user_id`,
`category`, `ordered`. -/
structure HistRow where
  user_id : Int
  category : String
  ordered : Int
  deriving DecidableEq

/-- A holdout-table row as consumed by `calculate_features`, which selects
only `user_id` and `order_number` from `df_incl_last`. -/
structure HoldRow where
  user_id : Int
  order_number : Int
  deriving DecidableEq

/-- Result of `DataFrame.squeeze()` on the one-column frame indexed by
`user_id`: a single row collapses both axes to a scalar; any other row
count leaves a Series from `user_id` to `order_number`. -/
inductive Squeezed where
  | scalar : Int → Squeezed
  | series : List (Int × Int) → Squeezed
  deriving DecidableEq

def squeeze (l : List (Int × Int)) : Squeezed :=
  match l with
  | [p] => Squeezed.scalar p.2
  | _ => Squeezed.series l

/-- A pandas float cell: a rational value, NaN, or a signed infinity. -/
inductive PVal where
  | num : Rat → PVal
  | nan : PVal
  | inf : PVal
  | ninf : PVal
  deriving DecidableEq

/-- Float division as used in `rating = ordered / orders_total`: division
by zero yields a signed infinity (NaN for 0/0) and NaN propagates.  The
divisor in the pipeline is always `num` or `nan`; the remaining operand
shapes never arise and default to NaN. -/
def pdiv (a b : PVal) : PVal :=
  match a, b with
  | PVal.num x, PVal.num y =>
    if y = 0 then (if x = 0 then PVal.nan else if x > 0 then PVal.inf else PVal.ninf)
    else PVal.num (x / y)
  | _, _ => PVal.nan

/-- An output row of `calculate_features`. -/
structure FeatRow where
  user_id : Int
  category : String
  ordered : Int
  orders_total : PVal
  rating : PVal
  id : String
  deriving DecidableEq

/-- `calculate_features` (lines 309-317): squeeze the holdout mapping and
`map` it over the history `user_id` column.  `Series.map` with a Series
argument looks keys up, producing NaN for missing keys; with a scalar
argument it attempts to call the scalar and raises `TypeError` on the
first element — so a single-row holdout raises exactly when the history
table is nonempty.  `rating` and `id` are then computed on a copy
(`train_df = df_ex_last_flatten.copy()`), leaving the argument tables
unchanged. -/
def calculate_features (df_ex_last_flatten : List HistRow)
    (df_incl_last : List HoldRow) : Except String (List FeatRow) :=
  match squeeze (df_incl_last.map (fun r => (r.user_id, r.order_number))) with
  | Squeezed.scalar _ =>
    if df_ex_last_flatten.isEmpty then Except.ok []
    else Except.error "TypeError: the squeezed mapper is a scalar and cannot be called"
  | Squeezed.series m =>
    Except.ok (df_ex_last_flatten.map (fun r =>
      let orders_total : PVal :=
        match tblLookup r.user_id m with
        | some n => PVal.num n
        | none => PVal.nan
      { user_id := r.user_id, category := r.category, ordered := r.ordered,
        orders_total := orders_total,
        rating := pdiv (PVal.num r.ordered) orders_total,
        id := toString r.user_id ++ ";" ++ r.category }))

/- ------------------------------------------------------------------
`create_user_item_matrix` (lines 114-125). -/

/-- A raw event row: `user_id`, `order_completed_at`, `cart` (one item
per row). -/
structure Event where
  user_id : Int
  order_completed_at : Int
  cart : String
  deriving DecidableEq

/-- A row of the user-item presence matrix. -/
structure MRow where
  user_id : Int
  order_completed_at : Int
  cells : List Bool
  deriving DecidableEq

/-- The user-item presence matrix: item column names and rows. -/
structure UIMatrix where
  itemCols : List String
  rows : List MRow
  deriving DecidableEq

/-- `pd.get_dummies(df, columns=["cart"], ...)` column set: one boolean
column per distinct `cart` value of the whole input (pandas emits them
sorted; the properties proved below do not depend on column order, so
first-occurrence order is used). -/
def cartCols (df : List Event) : List String :=
  (df.map (fun e => e.cart)).dedup

/-- The distinct `(user_id, order_completed_at)` group keys (pandas sorts
group keys; the properties proved below do not depend on row order, so
first-occurrence order is used). -/
def groupKeys (df : List Event) : List (Int × Int) :=
  (df.map (fun e => (e.user_id, e.order_completed_at))).dedup

/-- `create_user_item_matrix` (lines 121-125): one-hot encode `cart` into
boolean dummies, then `groupby(["user_id", "order_completed_at"]).any()`:
an item cell is true for a group iff some event row of the group carries
that item. -/
def create_user_item_matrix (df : List Event) : UIMatrix :=
  { itemCols := cartCols df,
    rows := (groupKeys df).map (fun k =>
      { user_id := k.1, order_completed_at := k.2,
        cells := (cartCols df).map (fun c =>
          (df.filter (fun e =>
            decide (e.user_id = k.1 ∧ e.order_completed_at = k.2))).any
            (fun e => decide (e.cart = c))) }) }

/- ------------------------------------------------------------------
`merge_and_filter` (lines 358-363) and `calculate_total_ordered`
(lines 391-393): the returned tables, on typed rows. -/

/-- A holdout long-table row (`df_incl_last_flatten`). -/
structure LongTRow where
  user_id : Int
  category : String
  target : Int
  deriving DecidableEq

/-- A merged training row: feature row plus attached target
(`none` marks the NaN that positional misalignment would produce). -/
structure MergedRow extends FeatRow where
  target : Option Int
  deriving DecidableEq

/-- Line 359 on the returned table: attach the holdout `target` column
positionally (both frames carry a fresh RangeIndex, so index alignment is
positional; a shorter target column leaves NaN on the excess rows). -/
def attachTarget : List FeatRow → List Int → List MergedRow
  | [], _ => []
  | r :: rs, [] => { toFeatRow := r, target := none } :: attachTarget rs []
  | r :: rs, v :: vs => { toFeatRow := r, target := some v } :: attachTarget rs vs

/-- `merge_and_filter` (lines 358-363), returned table: attach `target`,
then keep exactly the rows whose `id` is among
`submission_df.id.unique()`, resetting the index. -/
def merge_and_filter (train_df : List FeatRow) (df_incl_last : List LongTRow)
    (submission_ids : List String) : List MergedRow :=
  (attachTarget train_df (df_incl_last.map (fun r => r.target))).filter
    (fun r => decide (r.id ∈ submission_ids.dedup))

/-- A final training row with the broadcast popularity column. -/
structure TotRow extends MergedRow where
  total_ordered : Option Int
  deriving DecidableEq

/-- Line 391, `train_df.groupby("category")["ordered"].sum()`: an
association list from each distinct category to the sum of `ordered` over
all rows of the filtered table having that category. -/
def categorySums (train_df : List MergedRow) : List (String × Int) :=
  ((train_df.map (fun r => r.category)).dedup).map (fun c =>
    (c, ((train_df.filter (fun r => decide (r.category = c))).map
      (fun r => r.ordered)).sum))

/-- `calculate_total_ordered` (lines 391-393), returned table:
`train_df["category"].map(total_ordered)` broadcasts each category's sum
onto every row (`map` of a missing key would give NaN = `none`; every
row's own category is present, as proved below). -/
def calculate_total_ordered (train_df : List MergedRow) : List TotRow :=
  let total_ordered := categorySums train_df
  train_df.map (fun r =>
    { toMergedRow := r, total_ordered := tblLookup r.category total_ordered })

/- ------------------------------------------------------------------
`split_dataset` (lines 204-218) and `long_format_transform`
(lines 262-274). -/

/-- A row of the sequenced user-item matrix handed to `split_dataset`:
`user_id`, the item cells in item-column order, and `order_number` (the
column layout `add_purchase_counter` produces). -/
structure WRow where
  user_id : Int
  items : List Int
  order_number : Int
  deriving DecidableEq

/-- A wide table: item column names and rows; `user_id` is first and
`order_number` last in the pandas column order. -/
structure WideTable where
  itemCols : List String
  rows : List WRow
  deriving DecidableEq

/-- `df.groupby(["user_id"])["order_number"].transform("max")` at one
user: the maximum `order_number` among that user's rows (every table
row's own group is nonempty, so the default never matters). -/
def maxOrderNumber (t : WideTable) (u : Int) : Int :=
  (((t.rows.filter (fun r => decide (r.user_id = u))).map
    (fun r => r.order_number)).max?).getD 0

/-- Line 211-214: the boolean mask marking each user's maximal order. -/
def last_order (t : WideTable) (r : WRow) : Bool :=
  decide (r.order_number = maxOrderNumber t r.user_id)

/-- Pointwise sum of the item-cell vectors of a group
(`groupby("user_id").sum()` over the item columns; booleans are summed
into integer counts). -/
def sumItems (width : Nat) (grp : List WRow) : List Int :=
  grp.foldl (fun acc r => acc.zipWith (· + ·) r.items) (List.replicate width 0)

/-- `split_dataset` (lines 211-218): rows attaining their user's maximal
`order_number` form the holdout table `df_incl_last` (order preserved,
index reset); the remaining rows are grouped by `user_id` and summed
column-wise — `order_number` included — to form `df_ex_last` (pandas
sorts the group keys; the properties proved below do not depend on row
order, so first-occurrence order is used).  A user all of whose rows are
holdout rows contributes no group: pandas `groupby` creates groups only
for keys present in the filtered frame. -/
def split_dataset (t : WideTable) : WideTable × WideTable :=
  let nonlast := t.rows.filter (fun r => !(last_order t r))
  let users := (nonlast.map (fun r => r.user_id)).dedup
  let df_ex_last : WideTable :=
    { itemCols := t.itemCols,
      rows := users.map (fun u =>
        let grp := nonlast.filter (fun r => decide (r.user_id = u))
        { user_id := u,
          items := sumItems t.itemCols.length grp,
          order_number := (grp.map (fun r => r.order_number)).sum }) }
  let df_incl_last : WideTable :=
    { itemCols := t.itemCols, rows := t.rows.filter (last_order t) }
  (df_ex_last, df_incl_last)

/-- A long-format row produced by `pd.melt` (the value column is named
`ordered` for the history table and `target` for the holdout table; the
column name does not affect the properties below). -/
structure LongRow where
  user_id : Int
  category : String
  value : Int
  deriving DecidableEq

/-- `pd.melt(df, id_vars=["user_id"], var_name="category", ...)`: every
non-id column — the item columns *and* the retained `order_number`
column — is unpivoted, column-major: one output row per
(value-column, input-row) pair, zero/false values included. -/
def melt (t : WideTable) : List LongRow :=
  ((t.itemCols ++ ["order_number"]).enum.map (fun jc =>
    t.rows.map (fun r =>
      { user_id := r.user_id, category := jc.2,
        value := (r.items ++ [r.order_number]).getD jc.1 0 }))).flatten

/-- `long_format_transform` (lines 262-274): melt both tables. -/
def long_format_transform (df_ex_last df_incl_last : WideTable) :
    List LongRow × List LongRow :=
  (melt df_ex_last, melt df_incl_last)

/-- A dot-free path splits into the single segment that is the whole path. -/
theorem splitDot_of_no_dot (p : List Char) (h : '.' ∉ p) : splitDot p = [p] := by
  induction p with
  | nil => rfl
  | cons c cs ih =>
    have hc : c ≠ '.' := fun hc => h (hc ▸ List.mem_cons_self c cs)
    have hcs : '.' ∉ cs := fun hm => h (List.mem_cons_of_mem c hm)
    rw [splitDot, ih hcs, if_neg hc]

theorem fileExtension_of_no_dot (p : List Char) (h : '.' ∉ p) :
    fileExtension p = p := by
  rw [fileExtension, splitDot_of_no_dot p h]; rfl

/-- C5 counterexample: the path `"csv"` has no extension (no dot at all),
so per the claim it must raise an unsupported-format error; the code
computes `"csv".split(".")[-1] == "csv"` and loads it as CSV instead. -/
theorem load_data_extensionless_csv_cex :
    load_data ("csv".toList) = LoadResult.csv ∧ ('.' ∈ "csv".toList → False) := by
  exact ⟨rfl, by decide⟩

/-- C5 (amended): `load_data` dispatches on the last `"."`-separated
segment of the path (for a dot-free path, the whole path): CSV iff that
segment is `"csv"`, JSON iff it is `"json"`, and an unsupported-format
`ValueError` naming the segment otherwise.  In particular an
extension-less path equal to `"csv"` or `"json"` is loaded, not rejected;
all other extension-less paths raise. -/
theorem load_data_dispatch (p : List Char) :
    (load_data p = LoadResult.csv ↔ fileExtension p = "csv".toList) ∧
    (load_data p = LoadResult.json ↔ fileExtension p = "json".toList) ∧
    (load_data p = LoadResult.unsupported (fileExtension p) ↔
      (fileExtension p ≠ "csv".toList ∧ fileExtension p ≠ "json".toList)) ∧
    ('.' ∉ p → fileExtension p = p) := by
  refine ⟨?_, ?_, ?_, fileExtension_of_no_dot p⟩
  all_goals
    by_cases h1 : fileExtension p = "csv".toList <;>
      by_cases h2 : fileExtension p = "json".toList <;>
      (simp [load_data, h1, h2]; try simp_all)

/-- C5 witness: the dispatch theorem applied to the concrete path
`"data.json"`. -/
theorem load_data_dispatch_witness :
    (load_data ("data.json".toList) = LoadResult.csv ↔
      fileExtension ("data.json".toList) = "csv".toList) ∧
    (load_data ("data.json".toList) = LoadResult.json ↔
      fileExtension ("data.json".toList) = "json".toList) ∧
    (load_data ("data.json".toList)
        = LoadResult.unsupported (fileExtension ("data.json".toList)) ↔
      (fileExtension ("data.json".toList) ≠ "csv".toList ∧
        fileExtension ("data.json".toList) ≠ "json".toList)) ∧
    ('.' ∉ "data.json".toList →
      fileExtension ("data.json".toList) = "data.json".toList) :=
  load_data_dispatch ("data.json".toList)

/-! ### Association-table lemmas -/

theorem tblLookup_append_of_none {κ β : Type} [DecidableEq κ] (k : κ)
    (r s : List (κ × β)) (h : tblLookup k r = none) :
    tblLookup k (r ++ s) = tblLookup k s := by
  induction r with
  | nil => rfl
  | cons p ps ih =>
    rw [tblLookup] at h
    by_cases hp : p.1 = k
    · simp [hp] at h
    · rw [if_neg hp] at h
      rw [List.cons_append, tblLookup, if_neg hp]
      exact ih h

theorem tblLookup_setColRow_self (c : String) (v : Val) (r : ARow) :
    tblLookup c (setColRow c v r) = some v := by
  rw [setColRow]
  by_cases h : (tblLookup c r).isSome
  · rw [if_pos h]
    induction r with
    | nil => simp [tblLookup] at h
    | cons p ps ih =>
      by_cases hp : p.1 = c
      · simp [tblLookup, hp]
      · rw [tblLookup, if_neg hp] at h
        rw [List.map_cons, if_neg hp, tblLookup, if_neg hp]
        exact ih h
  · rw [if_neg h]
    have hn : tblLookup c r = none := by
      cases hh : tblLookup c r
      · rfl
      · rw [hh] at h; simp at h
    rw [tblLookup_append_of_none c r _ hn, tblLookup, if_pos rfl]

theorem tblLookup_append_single_ne (c d : String) (hne : d ≠ c) (v : Val) (r : ARow) :
    tblLookup d (r ++ [(c, v)]) = tblLookup d r := by
  induction r with
  | nil =>
    have hcd : c ≠ d := Ne.symm hne
    simp [tblLookup, hcd]
  | cons p ps ih =>
    by_cases hp : p.1 = d <;> simp [tblLookup, hp, ih]

theorem tblLookup_setColRow_ne (c d : String) (hne : d ≠ c) (v : Val) (r : ARow) :
    tblLookup d (setColRow c v r) = tblLookup d r := by
  rw [setColRow]
  by_cases h : (tblLookup c r).isSome
  · rw [if_pos h]
    clear h
    induction r with
    | nil => rfl
    | cons p ps ih =>
      by_cases hp : p.1 = d
      · have hpc : p.1 ≠ c := by rw [hp]; exact hne
        rw [List.map_cons, if_neg hpc, tblLookup, if_pos hp, tblLookup, if_pos hp]
      · rw [List.map_cons, tblLookup, tblLookup, if_neg hp]
        by_cases hpc : p.1 = c
        · rw [if_pos hpc]
          have hcd : c ≠ d := Ne.symm hne
          rw [if_neg hcd]
          exact ih
        · rw [if_neg hpc, if_neg hp]
          exact ih
  · rw [if_neg h]
    exact tblLookup_append_single_ne c d hne v r

theorem tblLookup_eraseCol_self (c : String) (r : ARow) :
    tblLookup c (eraseCol c r) = none := by
  induction r with
  | nil => rfl
  | cons p ps ih =>
    simp only [eraseCol] at ih ⊢
    by_cases hp : p.1 = c <;> simp [List.filter_cons, hp, tblLookup, ih]

theorem tblLookup_eraseCol_ne (c d : String) (hne : d ≠ c) (r : ARow) :
    tblLookup d (eraseCol c r) = tblLookup d r := by
  induction r with
  | nil => rfl
  | cons p ps ih =>
    simp only [eraseCol] at ih ⊢
    by_cases hp : p.1 = c
    · have hpd : p.1 ≠ d := by rw [hp]; exact Ne.symm hne
      have hcd : c ≠ d := Ne.symm hne
      simp [List.filter_cons, hp, tblLookup, hpd, ih, hcd]
    · by_cases hpd : p.1 = d <;>
        simp [List.filter_cons, hp, tblLookup, hpd, ih, hne]

theorem eraseCol_of_none (c : String) (r : ARow) (h : tblLookup c r = none) :
    eraseCol c r = r := by
  induction r with
  | nil => rfl
  | cons p ps ih =>
    rw [tblLookup] at h
    by_cases hp : p.1 = c
    · simp [hp] at h
    · rw [if_neg hp] at h
      have hps := ih h
      simp only [eraseCol] at hps ⊢
      simp [List.filter_cons, hp, hps]

theorem eraseCol_setColRow_of_none (c : String) (v : Val) (r : ARow)
    (h : tblLookup c r = none) : eraseCol c (setColRow c v r) = r := by
  have hs : ¬(tblLookup c r).isSome := by rw [h]; simp
  rw [setColRow, if_neg hs, eraseCol, List.filter_append]
  have h1 : (r.filter (fun p => !decide (p.1 = c))) = r := by
    simpa [eraseCol] using eraseCol_of_none c r h
  have h2 : ([(c, v)].filter (fun p : String × Val => !decide (p.1 = c))) = [] := by
    simp
  rw [h1, h2, List.append_nil]

theorem setCol_map_erase (c : String) (vs : List Val) (t : ATable)
    (h : ∀ r ∈ t, tblLookup c r = none) :
    (setCol c vs t).map (eraseCol c) = t := by
  induction t generalizing vs with
  | nil => cases vs <;> rfl
  | cons r rs ih =>
    have hr := h r (List.mem_cons_self r rs)
    have hrs : ∀ x ∈ rs, tblLookup c x = none :=
      fun x hx => h x (List.mem_cons_of_mem r hx)
    cases vs with
    | nil =>
      rw [setCol, List.map_cons, eraseCol_setColRow_of_none c _ r hr, ih [] hrs]
    | cons v vs =>
      rw [setCol, List.map_cons, eraseCol_setColRow_of_none c v r hr, ih vs hrs]

theorem mem_setCol_isSome (c : String) (vs : List Val) (t : ATable) (r' : ARow)
    (h : r' ∈ setCol c vs t) : (tblLookup c r').isSome := by
  induction t generalizing vs with
  | nil => cases vs <;> simp [setCol] at h
  | cons r rs ih =>
    cases vs with
    | nil =>
      rw [setCol] at h
      rcases List.mem_cons.mp h with h1 | h1
      · rw [h1, tblLookup_setColRow_self]; rfl
      · exact ih [] h1
    | cons v vs =>
      rw [setCol] at h
      rcases List.mem_cons.mp h with h1 | h1
      · rw [h1, tblLookup_setColRow_self]; rfl
      · exact ih vs h1

/-! ### C2: the stages are not purely functional -/

/-- C2 counterexample: concrete (valid, column-complete) input tables that
`add_purchase_counter`, `merge_and_filter` and `calculate_total_ordered`
each mutate in place — after the call the caller's table object carries a
new column, so no stage leaves the argument table unchanged. -/
theorem pipeline_stage_mutation_cex :
    add_purchase_counter_effect [[("user_id", Val.i 1), ("order_completed_at", Val.i 5)]] ≠
      [[("user_id", Val.i 1), ("order_completed_at", Val.i 5)]] ∧
    merge_and_filter_effect
        [[("user_id", Val.i 1), ("category", Val.s "A"), ("ordered", Val.i 2), ("id", Val.s "1;A")]]
        [[("user_id", Val.i 1), ("category", Val.s "A"), ("target", Val.i 1)]] ≠
      [[("user_id", Val.i 1), ("category", Val.s "A"), ("ordered", Val.i 2), ("id", Val.s "1;A")]] ∧
    calculate_total_ordered_effect
        [[("category", Val.s "A"), ("ordered", Val.i 2), ("id", Val.s "1;A"), ("target", Val.i 1)]] ≠
      [[("category", Val.s "A"), ("ordered", Val.i 2), ("id", Val.s "1;A"), ("target", Val.i 1)]] := by
  exact ⟨by decide, by decide, by decide⟩

/-- C2 (amended): `add_purchase_counter`, `merge_and_filter` and
`calculate_total_ordered` mutate the caller's table in place via a
`df[col] = series` assignment, each adding exactly one column
(`order_number`, `target`, `total_ordered` respectively): after the call
every row of the argument table carries the new column, and dropping that
column restores the original table (when the column was not already
present, as in the pipeline). -/
theorem pipeline_stages_mutate_in_place
    (t train incl : ATable) (r1 r2 r3 : ARow)
    (hod : ∀ r ∈ t, tblLookup "order_number" r = none)
    (htg : ∀ r ∈ train, tblLookup "target" r = none)
    (hto : ∀ r ∈ train, tblLookup "total_ordered" r = none)
    (h1 : r1 ∈ add_purchase_counter_effect t)
    (h2 : r2 ∈ merge_and_filter_effect train incl)
    (h3 : r3 ∈ calculate_total_ordered_effect train) :
    (add_purchase_counter_effect t).map (eraseCol "order_number") = t ∧
    (merge_and_filter_effect train incl).map (eraseCol "target") = train ∧
    (calculate_total_ordered_effect train).map (eraseCol "total_ordered") = train ∧
    (tblLookup "order_number" r1).isSome ∧
    (tblLookup "target" r2).isSome ∧
    (tblLookup "total_ordered" r3).isSome := by
  refine ⟨?_, ?_, ?_, ?_, ?_, ?_⟩
  · exact setCol_map_erase _ _ t hod
  · exact setCol_map_erase _ _ train htg
  · exact setCol_map_erase _ _ train hto
  · exact mem_setCol_isSome _ _ t r1 h1
  · exact mem_setCol_isSome _ _ train r2 h2
  · exact mem_setCol_isSome _ _ train r3 h3

/-- C2 witness: the amended theorem applied to the concrete tables of the
counterexample. -/
theorem pipeline_stages_mutate_in_place_witness :
    (add_purchase_counter_effect [[("user_id", Val.i 1), ("order_completed_at", Val.i 5)]]).map
        (eraseCol "order_number") =
      [[("user_id", Val.i 1), ("order_completed_at", Val.i 5)]] ∧
    (merge_and_filter_effect
          [[("user_id", Val.i 1), ("category", Val.s "A"), ("ordered", Val.i 2), ("id", Val.s "1;A")]]
          [[("user_id", Val.i 1), ("category", Val.s "A"), ("target", Val.i 1)]]).map
        (eraseCol "target") =
      [[("user_id", Val.i 1), ("category", Val.s "A"), ("ordered", Val.i 2), ("id", Val.s "1;A")]] ∧
    (calculate_total_ordered_effect
          [[("user_id", Val.i 1), ("category", Val.s "A"), ("ordered", Val.i 2), ("id", Val.s "1;A")]]).map
        (eraseCol "total_ordered") =
      [[("user_id", Val.i 1), ("category", Val.s "A"), ("ordered", Val.i 2), ("id", Val.s "1;A")]] ∧
    (tblLookup "order_number"
        [("user_id", Val.i 1), ("order_completed_at", Val.i 5), ("order_number", Val.i 0)]).isSome ∧
    (tblLookup "target"
        [("user_id", Val.i 1), ("category", Val.s "A"), ("ordered", Val.i 2), ("id", Val.s "1;A"),
          ("target", Val.i 1)]).isSome ∧
    (tblLookup "total_ordered"
        [("user_id", Val.i 1), ("category", Val.s "A"), ("ordered", Val.i 2), ("id", Val.s "1;A"),
          ("total_ordered", Val.i 2)]).isSome :=
  pipeline_stages_mutate_in_place
    [[("user_id", Val.i 1), ("order_completed_at", Val.i 5)]]
    [[("user_id", Val.i 1), ("category", Val.s "A"), ("ordered", Val.i 2), ("id", Val.s "1;A")]]
    [[("user_id", Val.i 1), ("category", Val.s "A"), ("target", Val.i 1)]]
    [("user_id", Val.i 1), ("order_completed_at", Val.i 5), ("order_number", Val.i 0)]
    [("user_id", Val.i 1), ("category", Val.s "A"), ("ordered", Val.i 2), ("id", Val.s "1;A"),
      ("target", Val.i 1)]
    [("user_id", Val.i 1), ("category", Val.s "A"), ("ordered", Val.i 2), ("id", Val.s "1;A"),
      ("total_ordered", Val.i 2)]
    (by decide) (by decide) (by decide) (by decide) (by decide) (by decide)

/-! ### C6: cumcount numbering -/

/-- Generalised cumcount invariant: with `seen` earlier keys already
consumed, the `order_number` values produced for the rows whose `user_id`
is `u`, read in row order, are the consecutive integers starting at the
number of occurrences of `u` in `seen`. -/
theorem cumcount_setCol_filter (u : Val) (df : ATable) (seen : List (Option Val)) :
    (((setCol "order_number"
          ((cumcountFrom seen (df.map (fun r => tblLookup "user_id" r))).map (fun n => Val.i (Int.ofNat n)))
          df).map (eraseCol "order_completed_at")).filter
        (fun r => decide (tblLookup "user_id" r = some u))).map
      (fun r => tblLookup "order_number" r)
    = (List.range' (keyCount (some u) seen)
        (df.countP (fun r => decide (tblLookup "user_id" r = some u)))).map
      (fun n => some (Val.i (Int.ofNat n))) := by
  induction df generalizing seen with
  | nil => simp [setCol]
  | cons r rest ih =>
    have hue : ("user_id" : String) ≠ "order_completed_at" := by decide
    have huo : ("user_id" : String) ≠ "order_number" := by decide
    have hoe : ("order_number" : String) ≠ "order_completed_at" := by decide
    simp only [List.map_cons, cumcountFrom, setCol, List.filter_cons, List.countP_cons]
    have huser : tblLookup "user_id"
        (eraseCol "order_completed_at"
          (setColRow "order_number"
            (Val.i (Int.ofNat (keyCount (tblLookup "user_id" r) seen))) r))
        = tblLookup "user_id" r := by
      rw [tblLookup_eraseCol_ne _ _ hue, tblLookup_setColRow_ne _ _ huo]
    by_cases hk : tblLookup "user_id" r = some u
    · have hnum : tblLookup "order_number"
          (eraseCol "order_completed_at"
            (setColRow "order_number"
              (Val.i (Int.ofNat (keyCount (tblLookup "user_id" r) seen))) r))
          = some (Val.i (Int.ofNat (keyCount (tblLookup "user_id" r) seen))) := by
        rw [tblLookup_eraseCol_ne _ _ hoe, tblLookup_setColRow_self]
      have hseen : keyCount (some u) (tblLookup "user_id" r :: seen)
          = keyCount (some u) seen + 1 := by
        simp [keyCount, List.countP_cons, hk]
      rw [hk] at hnum huser hseen ⊢
      rw [huser]
      simp [List.range'_succ]
      refine ⟨hnum, ?_⟩
      have h2 := ih (some u :: seen)
      rw [hseen] at h2
      exact h2
    · have hseen : keyCount (some u) (tblLookup "user_id" r :: seen)
          = keyCount (some u) seen := by
        simp [keyCount, List.countP_cons, hk]
      rw [huser]
      simp [hk]
      have h2 := ih (tblLookup "user_id" r :: seen)
      rw [hseen] at h2
      exact h2

/-- C6: within every `user_id` group of `k` rows, `add_purchase_counter`
assigns `order_number` values `0..k-1` in the table's current row order
(groupby cumcount takes a running count, no re-sorting), and the returned
table no longer contains the `order_completed_at` column.  The two
validity hypotheses state the column requirements the source validates
before transforming, and that `u` is an actual (non-NaN) key. -/
theorem add_purchase_counter_order_numbers
    (t : ATable) (u : Val) (r' : ARow)
    (_hval : ∀ r ∈ t, (tblLookup "user_id" r).isSome ∧
      (tblLookup "order_completed_at" r).isSome)
    (_hnan : u ≠ Val.nan)
    (hr' : r' ∈ add_purchase_counter t) :
    ((add_purchase_counter t).filter
        (fun r => decide (tblLookup "user_id" r = some u))).map
      (fun r => tblLookup "order_number" r)
      = (List.range
          ((t.filter (fun r => decide (tblLookup "user_id" r = some u))).length)).map
        (fun n => some (Val.i (Int.ofNat n))) ∧
    tblLookup "order_completed_at" r' = none := by
  constructor
  · have h := cumcount_setCol_filter u t []
    rw [add_purchase_counter, add_purchase_counter_effect, cumcount]
    rw [h, List.countP_eq_length_filter]
    have h0 : keyCount (some u) [] = 0 := rfl
    rw [h0, ← List.range_eq_range']
  · rw [add_purchase_counter] at hr'
    rcases List.mem_map.mp hr' with ⟨x, _, hx⟩
    rw [← hx]
    exact tblLookup_eraseCol_self _ x

/-- C6 witness: three rows, users 1, 2, 1; user 1 receives order numbers
0 and 1 in row order, and the output rows lack `order_completed_at`. -/
theorem add_purchase_counter_order_numbers_witness :
    ((add_purchase_counter
          [[("user_id", Val.i 1), ("order_completed_at", Val.i 10)],
            [("user_id", Val.i 2), ("order_completed_at", Val.i 11)],
            [("user_id", Val.i 1), ("order_completed_at", Val.i 12)]]).filter
        (fun r => decide (tblLookup "user_id" r = some (Val.i 1)))).map
      (fun r => tblLookup "order_number" r)
      = [some (Val.i 0), some (Val.i 1)] ∧
    tblLookup "order_completed_at" [("user_id", Val.i 1), ("order_number", Val.i 0)] = none := by
  have h := add_purchase_counter_order_numbers
    [[("user_id", Val.i 1), ("order_completed_at", Val.i 10)],
      [("user_id", Val.i 2), ("order_completed_at", Val.i 11)],
      [("user_id", Val.i 1), ("order_completed_at", Val.i 12)]]
    (Val.i 1)
    [("user_id", Val.i 1), ("order_number", Val.i 0)]
    (by decide) (by decide) (by decide)
  exact ⟨by rw [h.1]; rfl, h.2⟩

/-! ### C4 and C10: calculate_features -/

theorem tblLookup_eq_none_of_not_mem {κ β : Type} [DecidableEq κ] (k : κ)
    (l : List (κ × β)) (h : k ∉ l.map Prod.fst) : tblLookup k l = none := by
  induction l with
  | nil => rfl
  | cons p ps ih =>
    have hp : p.1 ≠ k := fun he => h (by simp [he])
    rw [tblLookup, if_neg hp]
    exact ih (fun hm => h (List.mem_cons_of_mem _ hm))

/-- C4 counterexample: history user 3 has no holdout entry, yet
`calculate_features` does not fail — it returns a table in which user 3
has NaN `orders_total` and NaN `rating` (undefined values beyond the
documented zero-orders NaN case). -/
theorem calculate_features_missing_user_cex :
    calculate_features [⟨1, "A", 2⟩, ⟨3, "B", 1⟩] [⟨1, 4⟩, ⟨2, 5⟩]
      = Except.ok
        [⟨1, "A", 2, PVal.num 4, PVal.num (1/2), "1;A"⟩,
          ⟨3, "B", 1, PVal.nan, PVal.nan, "3;B"⟩] ∧
    (3 : Int) ∉ ([⟨1, 4⟩, ⟨2, 5⟩] : List HoldRow).map (fun r => r.user_id) := by
  refine ⟨?_, by decide⟩
  simp only [calculate_features, squeeze, List.map_cons, List.map_nil]
  simp [tblLookup, pdiv]
  norm_num
  exact ⟨rfl, rfl⟩

/-- C4 (amended): `calculate_features` performs no data-integrity check.
Whenever the holdout table does not have exactly one row (so that the
squeeze yields a Series and no scalar `TypeError` intervenes), it
returns a table with one row per history row, and every history row whose
`user_id` has no holdout entry receives NaN `orders_total` and NaN
`rating` instead of an error. -/
theorem calculate_features_no_integrity_check
    (hist : List HistRow) (incl : List HoldRow) (row : FeatRow)
    (h1 : incl.length ≠ 1)
    (h2 : row ∈ (calculate_features hist incl).toOption.getD [])
    (h3 : row.user_id ∉ incl.map (fun r => r.user_id)) :
    (calculate_features hist incl).toOption.isSome ∧
    ((calculate_features hist incl).toOption.getD []).length = hist.length ∧
    row.orders_total = PVal.nan ∧ row.rating = PVal.nan := by
  have hser : squeeze (incl.map (fun r => (r.user_id, r.order_number)))
      = Squeezed.series (incl.map (fun r => (r.user_id, r.order_number))) := by
    match incl with
    | [] => rfl
    | [a] => simp at h1
    | a :: b :: l => rfl
  rw [calculate_features, hser] at h2 ⊢
  refine ⟨rfl, by simp [Except.toOption], ?_⟩
  simp only [Except.toOption, Option.getD] at h2
  rcases List.mem_map.mp h2 with ⟨r, hr, hrow⟩
  have hnone : tblLookup r.user_id (incl.map (fun r => (r.user_id, r.order_number))) = none := by
    apply tblLookup_eq_none_of_not_mem
    rw [List.map_map]
    have : row.user_id = r.user_id := by rw [← hrow]
    rw [this] at h3
    exact h3
  rw [← hrow]
  simp [hnone, pdiv]

/-- C4 witness: empty holdout (zero rows, so the mapper stays a Series),
one history row for user 3; the output row keeps NaN features. -/
theorem calculate_features_no_integrity_check_witness :
    (calculate_features [⟨3, "B", 1⟩] []).toOption.isSome ∧
    ((calculate_features [⟨3, "B", 1⟩] []).toOption.getD []).length = 1 ∧
    (⟨3, "B", 1, PVal.nan, PVal.nan, "3;B"⟩ : FeatRow).orders_total = PVal.nan ∧
    (⟨3, "B", 1, PVal.nan, PVal.nan, "3;B"⟩ : FeatRow).rating = PVal.nan :=
  calculate_features_no_integrity_check [⟨3, "B", 1⟩] []
    ⟨3, "B", 1, PVal.nan, PVal.nan, "3;B"⟩ (by decide) (by decide) (by decide)

/-- C10 counterexample: a one-row holdout table together with an *empty*
history table (exactly what the pipeline produces for a dataset with one
user who has a single order).  Every history `user_id` vacuously has a
matching holdout entry, yet `calculate_features` does not raise: the
scalar mapper is never applied to any element, and an empty feature table
is returned. -/
theorem calculate_features_single_row_holdout_cex :
    ([(⟨1, 3⟩ : HoldRow)].length = 1) ∧
    calculate_features [] [⟨1, 3⟩] = Except.ok [] := by
  exact ⟨rfl, rfl⟩

/-- C10 (amended): for a holdout table with exactly one row, the squeeze
collapses the per-user order-number mapping to a scalar, and
`calculate_features` raises a `TypeError` whenever the history table is
nonempty (the scalar is applied to the first mapped element); with an
empty history table the scalar is never applied and an empty table is
returned. -/
theorem calculate_features_single_row_holdout
    (hist : List HistRow) (incl : List HoldRow)
    (h1 : incl.length = 1) (h2 : hist ≠ []) :
    calculate_features hist incl
      = Except.error "TypeError: the squeezed mapper is a scalar and cannot be called" := by
  rcases List.length_eq_one.mp h1 with ⟨x, rfl⟩
  match hist with
  | [] => exact absurd rfl h2
  | a :: l => rfl

/-- C10 witness: one user with two orders — one history row for user 1 and
user 1's single holdout row; `calculate_features` raises even though every
history `user_id` has a matching holdout entry. -/
theorem calculate_features_single_row_holdout_witness :
    calculate_features [⟨1, "A", 1⟩] [⟨1, 3⟩]
      = Except.error "TypeError: the squeezed mapper is a scalar and cannot be called" :=
  calculate_features_single_row_holdout [⟨1, "A", 1⟩] [⟨1, 3⟩] rfl (by decide)

/-! ### C7: create_user_item_matrix -/

theorem zip_self_map {α β : Type} (l : List α) (g : α → β) :
    l.zip (l.map g) = l.map (fun a => (a, g a)) := by
  have h := List.zip_map' id g l
  simpa using h

/-- C7: the matrix has one row per distinct
`(user_id, order_completed_at)` pair of the input, every row carries one
boolean cell per item column, and a cell is true iff its item occurs in
at least one input row of that group. -/
theorem create_user_item_matrix_spec
    (df : List Event) (row : MRow) (cb : String × Bool)
    (hrow : row ∈ (create_user_item_matrix df).rows)
    (hcb : cb ∈ (create_user_item_matrix df).itemCols.zip row.cells) :
    (create_user_item_matrix df).rows.length
      = ((df.map (fun e => (e.user_id, e.order_completed_at))).dedup).length ∧
    row.cells.length = (create_user_item_matrix df).itemCols.length ∧
    (cb.2 = true ↔ ∃ e ∈ df, e.user_id = row.user_id ∧
      e.order_completed_at = row.order_completed_at ∧ e.cart = cb.1) := by
  rcases List.mem_map.mp hrow with ⟨k, hk, hroweq⟩
  subst hroweq
  refine ⟨by simp [create_user_item_matrix, groupKeys],
    by simp [create_user_item_matrix], ?_⟩
  rw [show (create_user_item_matrix df).itemCols.zip
      ((⟨k.1, k.2, (cartCols df).map (fun c =>
        (df.filter (fun e =>
          decide (e.user_id = k.1 ∧ e.order_completed_at = k.2))).any
          (fun e => decide (e.cart = c)))⟩ : MRow)).cells
      = (cartCols df).map (fun c => (c,
          (df.filter (fun e =>
            decide (e.user_id = k.1 ∧ e.order_completed_at = k.2))).any
            (fun e => decide (e.cart = c)))) from zip_self_map _ _] at hcb
  rcases List.mem_map.mp hcb with ⟨c, _, hcbeq⟩
  subst hcbeq
  simp [List.any_eq_true, List.mem_filter, and_assoc]

/-- C7 witness: a single event (user 1, order 1, item A) yields a one-row
matrix whose single cell is true exactly because that event exists. -/
theorem create_user_item_matrix_spec_witness :
    (create_user_item_matrix [⟨1, 1, "A"⟩]).rows.length
      = (([⟨1, 1, "A"⟩] : List Event).map
          (fun e => (e.user_id, e.order_completed_at))).dedup.length ∧
    (⟨1, 1, [true]⟩ : MRow).cells.length
      = (create_user_item_matrix [⟨1, 1, "A"⟩]).itemCols.length ∧
    ((("A", true) : String × Bool).2 = true ↔ ∃ e ∈ ([⟨1, 1, "A"⟩] : List Event),
      e.user_id = (⟨1, 1, [true]⟩ : MRow).user_id ∧
      e.order_completed_at = (⟨1, 1, [true]⟩ : MRow).order_completed_at ∧
      e.cart = (("A", true) : String × Bool).1) :=
  create_user_item_matrix_spec [⟨1, 1, "A"⟩] ⟨1, 1, [true]⟩ ("A", true)
    (by decide) (by decide)

/-! ### C8: merge_and_filter allowlist -/

/-- C8: every row of the table returned by `merge_and_filter` has its
`id` among the distinct ids of the allowlist (`submission_df.id.unique()`),
hence in the allowlist column itself. -/
theorem merge_and_filter_allowlist
    (train_df : List FeatRow) (df_incl_last : List LongTRow)
    (submission_ids : List String) (row : MergedRow)
    (hrow : row ∈ merge_and_filter train_df df_incl_last submission_ids) :
    row.id ∈ submission_ids.dedup ∧ row.id ∈ submission_ids := by
  have h := List.mem_filter.mp hrow
  have h2 : row.id ∈ submission_ids.dedup := by simpa using h.2
  exact ⟨h2, List.mem_dedup.mp h2⟩

/-- C8 witness: a one-row training table whose id is allowlisted. -/
theorem merge_and_filter_allowlist_witness :
    ("1;A" : String) ∈ (["1;A", "2;B"] : List String).dedup ∧
    ("1;A" : String) ∈ (["1;A", "2;B"] : List String) :=
  merge_and_filter_allowlist
    [⟨1, "A", 2, PVal.nan, PVal.nan, "1;A"⟩]
    [⟨1, "A", 0⟩]
    ["1;A", "2;B"]
    ⟨⟨1, "A", 2, PVal.nan, PVal.nan, "1;A"⟩, some 0⟩
    (by decide)

/-! ### C9: calculate_total_ordered -/

theorem tblLookup_map_pair {α β : Type} [DecidableEq α] (keys : List α)
    (f : α → β) (k : α) (hk : k ∈ keys) :
    tblLookup k (keys.map (fun c => (c, f c))) = some (f k) := by
  induction keys with
  | nil => cases hk
  | cons a l ih =>
    by_cases ha : a = k
    · subst ha; simp [tblLookup]
    · have hkl : k ∈ l := by
        rcases List.mem_cons.mp hk with h | h
        · exact absurd h.symm ha
        · exact h
      rw [List.map_cons, tblLookup, if_neg ha]
      exact ih hkl

/-- C9: the returned table has the same number of rows as the input, and
every output row carries `total_ordered` equal to the sum of `ordered`
over all rows of the input table with the same category. -/
theorem calculate_total_ordered_spec
    (train_df : List MergedRow) (row : TotRow)
    (hrow : row ∈ calculate_total_ordered train_df) :
    (calculate_total_ordered train_df).length = train_df.length ∧
    row.total_ordered = some (((train_df.filter
      (fun r => decide (r.category = row.category))).map
        (fun r => r.ordered)).sum) := by
  refine ⟨by simp [calculate_total_ordered], ?_⟩
  rcases List.mem_map.mp hrow with ⟨r, hr, hroweq⟩
  subst hroweq
  show tblLookup r.category (categorySums train_df)
    = some (((train_df.filter (fun x => decide (x.category = r.category))).map
        (fun x => x.ordered)).sum)
  have hmem : r.category ∈ (train_df.map (fun x => x.category)).dedup :=
    List.mem_dedup.mpr (List.mem_map_of_mem _ hr)
  rw [categorySums]
  exact tblLookup_map_pair _
    (fun c => ((train_df.filter (fun x => decide (x.category = c))).map
      (fun x => x.ordered)).sum) r.category hmem

/-- C9 witness: two rows of category A (ordered 2 and 3) and one of
category B; the first output row broadcasts 5. -/
theorem calculate_total_ordered_spec_witness :
    (calculate_total_ordered
        [⟨⟨1, "A", 2, PVal.nan, PVal.nan, "1;A"⟩, some 0⟩,
          ⟨⟨2, "A", 3, PVal.nan, PVal.nan, "2;A"⟩, some 1⟩,
          ⟨⟨1, "B", 4, PVal.nan, PVal.nan, "1;B"⟩, some 0⟩]).length = 3 ∧
    (⟨⟨⟨1, "A", 2, PVal.nan, PVal.nan, "1;A"⟩, some 0⟩, some 5⟩ : TotRow).total_ordered
      = some ((([⟨⟨1, "A", 2, PVal.nan, PVal.nan, "1;A"⟩, some 0⟩,
          ⟨⟨2, "A", 3, PVal.nan, PVal.nan, "2;A"⟩, some 1⟩,
          ⟨⟨1, "B", 4, PVal.nan, PVal.nan, "1;B"⟩, some 0⟩] : List MergedRow).filter
            (fun r => decide (r.category =
              (⟨⟨⟨1, "A", 2, PVal.nan, PVal.nan, "1;A"⟩, some 0⟩, some 5⟩ : TotRow).category))).map
              (fun r => r.ordered)).sum :=
  calculate_total_ordered_spec
    [⟨⟨1, "A", 2, PVal.nan, PVal.nan, "1;A"⟩, some 0⟩,
      ⟨⟨2, "A", 3, PVal.nan, PVal.nan, "2;A"⟩, some 1⟩,
      ⟨⟨1, "B", 4, PVal.nan, PVal.nan, "1;B"⟩, some 0⟩]
    ⟨⟨⟨1, "A", 2, PVal.nan, PVal.nan, "1;A"⟩, some 0⟩, some 5⟩
    (by decide)

/-! ### C3: a user with a single order -/

/-- C3 counterexample: user 2 has exactly one order.  The History table
contains no row for user 2 at all — `groupby("user_id").sum()` over the
filtered non-holdout rows creates no group for a user with no such rows —
while user 2's single row is their Holdout row.  The claim's all-zero
History row does not exist. -/
theorem single_order_user_history_cex :
    ((split_dataset ⟨["A"], [⟨1, [1], 0⟩, ⟨1, [1], 1⟩, ⟨2, [1], 0⟩]⟩).1.rows.map
      (fun r => r.user_id)) = [1] ∧
    ((split_dataset ⟨["A"], [⟨1, [1], 0⟩, ⟨1, [1], 1⟩, ⟨2, [1], 0⟩]⟩).2.rows.filter
      (fun r => decide (r.user_id = 2))) = [⟨2, [1], 0⟩] ∧
    (([⟨1, [1], 0⟩, ⟨1, [1], 1⟩, ⟨2, [1], 0⟩] : List WRow).filter
      (fun r => decide (r.user_id = 2))).length = 1 := by
  exact ⟨by decide, by decide, by decide⟩

/-- The history table's `user_id` column is exactly the deduplicated user
column of the filtered non-holdout rows. -/
theorem history_users_eq (t : WideTable) :
    (split_dataset t).1.rows.map (fun r => r.user_id)
      = ((t.rows.filter (fun r => !(last_order t r))).map (fun r => r.user_id)).dedup := by
  simp only [split_dataset, List.map_map]
  exact List.map_id _

/-- C3 (amended): a user with exactly one row is *absent* from the History
table — the single row is that user's maximal order, the filtered
non-holdout frame contains no row of that user, and pandas `groupby`
yields no group (not an all-zero row) — while the single row forms the
user's Holdout rows. -/
theorem single_order_user_absent_from_history
    (t : WideTable) (u : Int)
    (h1 : (t.rows.filter (fun r => decide (r.user_id = u))).length = 1) :
    u ∉ ((split_dataset t).1.rows.map (fun r => r.user_id)) ∧
    (split_dataset t).2.rows.filter (fun r => decide (r.user_id = u))
      = t.rows.filter (fun r => decide (r.user_id = u)) := by
  rcases List.length_eq_one.mp h1 with ⟨r0, hr0⟩
  have hr0mem : r0 ∈ t.rows.filter (fun r => decide (r.user_id = u)) := by
    rw [hr0]; exact List.mem_cons_self r0 []
  have hr0u : r0.user_id = u := by
    have := (List.mem_filter.mp hr0mem).2
    simpa using this
  have hmax : maxOrderNumber t u = r0.order_number := by
    rw [maxOrderNumber, hr0]
    rfl
  have hlast : last_order t r0 = true := by
    simp [last_order, hr0u, hmax]
  have hsplit2 : (split_dataset t).2.rows = t.rows.filter (last_order t) := by
    simp [split_dataset]
  have hsplit1 := history_users_eq t
  constructor
  · rw [hsplit1]
    intro hmem
    rcases List.mem_map.mp (List.mem_dedup.mp hmem) with ⟨r, hrmem, hru⟩
    have hrp : r ∈ t.rows.filter (fun r => decide (r.user_id = u)) :=
      List.mem_filter.mpr ⟨(List.mem_filter.mp hrmem).1, by simp [hru]⟩
    rw [hr0] at hrp
    have hrr0 : r = r0 := by simpa using hrp
    have hnot := (List.mem_filter.mp hrmem).2
    rw [hrr0, hlast] at hnot
    simp at hnot
  · rw [hsplit2, List.filter_filter]
    have hcomm : ∀ a : WRow,
        (decide (a.user_id = u) && last_order t a)
          = (last_order t a && decide (a.user_id = u)) := fun a => Bool.and_comm _ _
    rw [List.filter_congr (fun a _ => hcomm a), ← List.filter_filter, hr0]
    simp [List.filter_cons, hlast]

/-- C3 witness: the amended theorem at the counterexample table. -/
theorem single_order_user_absent_from_history_witness :
    (2 : Int) ∉ ((split_dataset ⟨["A"],
        [⟨1, [1], 0⟩, ⟨1, [1], 1⟩, ⟨2, [1], 0⟩]⟩).1.rows.map (fun r => r.user_id)) ∧
    (split_dataset ⟨["A"], [⟨1, [1], 0⟩, ⟨1, [1], 1⟩, ⟨2, [1], 0⟩]⟩).2.rows.filter
        (fun r => decide (r.user_id = 2))
      = ([⟨1, [1], 0⟩, ⟨1, [1], 1⟩, ⟨2, [1], 0⟩] : List WRow).filter
        (fun r => decide (r.user_id = 2)) :=
  single_order_user_absent_from_history
    ⟨["A"], [⟨1, [1], 0⟩, ⟨1, [1], 1⟩, ⟨2, [1], 0⟩]⟩ 2 (by decide)

/-! ### C1: long-format row count -/

theorem sum_map_const_nat {α : Type} (l : List α) (k : Nat) :
    (l.map (fun _ => k)).sum = l.length * k := by
  induction l with
  | nil => simp
  | cons a l ih => simp [ih, Nat.succ_mul, Nat.add_comm]

/-- Length of a column-major flatten: one element per (outer, inner) pair. -/
theorem length_flatten_map_map {α β γ : Type} (l : List α) (m : List β)
    (g : α → β → γ) :
    ((l.map (fun x => m.map (g x))).flatten).length = l.length * m.length := by
  induction l with
  | nil => simp
  | cons a l ih => simp [ih, Nat.succ_mul, Nat.add_comm]

/-- `pd.melt` row count: (number of melted columns) x (number of rows). -/
theorem melt_length (t : WideTable) :
    (melt t).length = t.rows.length * (t.itemCols.length + 1) := by
  rw [melt, length_flatten_map_map, List.enum_length]
  simp [List.length_append, Nat.mul_comm]

theorem count_map_user (L : List WRow) (a : Int) :
    List.count a (L.map (fun r => r.user_id))
      = (L.filter (fun r => decide (r.user_id = a))).length := by
  have hfun : ((fun x => x == a) ∘ fun r : WRow => r.user_id)
      = fun r : WRow => decide (r.user_id = a) := by
    funext r
    simp [Function.comp, beq_eq_decide]
  rw [List.count, List.countP_map, hfun, List.countP_eq_length_filter]

theorem length_le_one_of_all_eq {β : Type} (l : List β) (a : β)
    (hn : l.Nodup) (h : ∀ x ∈ l, x = a) : l.length ≤ 1 := by
  match l with
  | [] => simp
  | [x] => simp
  | x :: y :: tl =>
    have hx : x = a := h x (by simp)
    have hy : y = a := h y (by simp)
    rw [List.nodup_cons] at hn
    exact absurd (by rw [hx, hy]; exact List.mem_cons_self a tl) hn.1

/-- Within-user distinctness of `order_number` (what `cumcount` upstream
guarantees) makes the holdout table keep at most one row per user: its
user column has no duplicates. -/
theorem holdout_users_nodup (t : WideTable)
    (hnd : ∀ u ∈ t.rows.map (fun r => r.user_id),
      ((t.rows.filter (fun r => decide (r.user_id = u))).map
        (fun r => r.order_number)).Nodup) :
    ((t.rows.filter (last_order t)).map (fun r => r.user_id)).Nodup := by
  rw [List.nodup_iff_count_le_one]
  intro a
  rw [count_map_user, List.filter_filter]
  by_cases hmem : a ∈ t.rows.map (fun r => r.user_id)
  · have hnodup := hnd a hmem
    have hswap : t.rows.filter (fun r => decide (r.user_id = a) && last_order t r)
        = (t.rows.filter (fun r => decide (r.user_id = a))).filter (last_order t) := by
      rw [List.filter_filter]
      exact (List.filter_congr (fun r _ => Bool.and_comm _ _)).symm
    rw [hswap]
    have hsub : (((t.rows.filter (fun r => decide (r.user_id = a))).filter
          (last_order t)).map (fun r => r.order_number)).Sublist
        ((t.rows.filter (fun r => decide (r.user_id = a))).map
          (fun r => r.order_number)) :=
      (List.filter_sublist _).map _
    have hnodup2 := List.Nodup.sublist hsub hnodup
    have hall : ∀ x ∈ ((t.rows.filter (fun r => decide (r.user_id = a))).filter
        (last_order t)).map (fun r => r.order_number), x = maxOrderNumber t a := by
      intro x hx
      rcases List.mem_map.mp hx with ⟨r, hrmem, hxr⟩
      have h1 := List.mem_filter.mp hrmem
      have hra : r.user_id = a := by
        have := (List.mem_filter.mp h1.1).2
        simpa using this
      have hlastr : r.order_number = maxOrderNumber t r.user_id := by
        have := h1.2
        simpa [last_order] using this
      rw [← hxr, hlastr, hra]
    calc ((t.rows.filter (fun r => decide (r.user_id = a))).filter
          (last_order t)).length
        = (((t.rows.filter (fun r => decide (r.user_id = a))).filter
          (last_order t)).map (fun r => r.order_number)).length :=
          (List.length_map _ _).symm
      _ ≤ 1 := length_le_one_of_all_eq _ _ hnodup2 hall
  · have hempty : t.rows.filter
        (fun r => decide (r.user_id = a) && last_order t r) = [] := by
      rw [List.filter_eq_nil_iff]
      intro r hr hcontra
      have hra : r.user_id = a := by
        have := (Bool.and_eq_true _ _).mp hcontra
        simpa using this.1
      exact hmem (by rw [← hra]; exact List.mem_map_of_mem _ hr)
    rw [hempty]
    simp

/-- C1 counterexample: one user with two orders over a single item column.
Both melted tables have 2 rows — the item column *and* the retained
`order_number` column are unpivoted — while the claim predicts
(distinct users) x (item columns) = 1 x 1 = 1. -/
theorem long_format_transform_row_count_cex :
    (melt (split_dataset ⟨["A"], [⟨1, [1], 0⟩, ⟨1, [1], 1⟩]⟩).1).length = 2 ∧
    (((split_dataset ⟨["A"], [⟨1, [1], 0⟩, ⟨1, [1], 1⟩]⟩).1.rows.map
      (fun r => r.user_id)).dedup).length = 1 ∧
    (melt (split_dataset ⟨["A"], [⟨1, [1], 0⟩, ⟨1, [1], 1⟩]⟩).2).length = 2 ∧
    (((split_dataset ⟨["A"], [⟨1, [1], 0⟩, ⟨1, [1], 1⟩]⟩).2.rows.map
      (fun r => r.user_id)).dedup).length = 1 ∧
    ((⟨["A"], [⟨1, [1], 0⟩, ⟨1, [1], 1⟩]⟩ : WideTable)).itemCols.length = 1 ∧
    (melt (split_dataset ⟨["A"], [⟨1, [1], 0⟩, ⟨1, [1], 1⟩]⟩).1).length ≠
      (((split_dataset ⟨["A"], [⟨1, [1], 0⟩, ⟨1, [1], 1⟩]⟩).1.rows.map
        (fun r => r.user_id)).dedup).length *
      ((⟨["A"], [⟨1, [1], 0⟩, ⟨1, [1], 1⟩]⟩ : WideTable)).itemCols.length := by
  refine ⟨by decide, by decide, by decide, by decide, by decide, by decide⟩

/-- C1 (amended): for both tables produced by `split_dataset`, the melted
long table has (number of distinct users in that table) x (number of item
columns + 1) rows — the extra column is `order_number`, which survives
the split (it is summed into the history table and kept in the holdout
table) and is melted like any other non-id column.  The hypothesis is the
within-user distinctness of `order_number` that the upstream `cumcount`
stage guarantees (it makes the holdout table keep exactly one row per
user). -/
theorem long_format_transform_row_count (t : WideTable)
    (hnd : ∀ u ∈ t.rows.map (fun r => r.user_id),
      ((t.rows.filter (fun r => decide (r.user_id = u))).map
        (fun r => r.order_number)).Nodup) :
    ((long_format_transform (split_dataset t).1 (split_dataset t).2).1.length
      = (((split_dataset t).1.rows.map (fun r => r.user_id)).dedup).length
        * (t.itemCols.length + 1)) ∧
    ((long_format_transform (split_dataset t).1 (split_dataset t).2).2.length
      = (((split_dataset t).2.rows.map (fun r => r.user_id)).dedup).length
        * (t.itemCols.length + 1)) := by
  have hcols1 : (split_dataset t).1.itemCols = t.itemCols := by simp [split_dataset]
  have hcols2 : (split_dataset t).2.itemCols = t.itemCols := by simp [split_dataset]
  constructor
  · show (melt (split_dataset t).1).length = _
    rw [melt_length, hcols1]
    congr 1
    rw [history_users_eq, List.dedup_eq_self.mpr (List.nodup_dedup _)]
    simp [split_dataset]
  · show (melt (split_dataset t).2).length = _
    rw [melt_length, hcols2]
    congr 1
    have h2 : (split_dataset t).2.rows = t.rows.filter (last_order t) := by
      simp [split_dataset]
    rw [h2, List.dedup_eq_self.mpr (holdout_users_nodup t hnd), List.length_map]

/-- C1 witness: the amended theorem at the counterexample table (both long
tables have 1 x (1+1) = 2 rows). -/
theorem long_format_transform_row_count_witness :
    ((long_format_transform (split_dataset ⟨["A"], [⟨1, [1], 0⟩, ⟨1, [1], 1⟩]⟩).1
        (split_dataset ⟨["A"], [⟨1, [1], 0⟩, ⟨1, [1], 1⟩]⟩).2).1.length
      = (((split_dataset ⟨["A"], [⟨1, [1], 0⟩, ⟨1, [1], 1⟩]⟩).1.rows.map
          (fun r => r.user_id)).dedup).length *
        (((⟨["A"], [⟨1, [1], 0⟩, ⟨1, [1], 1⟩]⟩ : WideTable)).itemCols.length + 1)) ∧
    ((long_format_transform (split_dataset ⟨["A"], [⟨1, [1], 0⟩, ⟨1, [1], 1⟩]⟩).1
        (split_dataset ⟨["A"], [⟨1, [1], 0⟩, ⟨1, [1], 1⟩]⟩).2).2.length
      = (((split_dataset ⟨["A"], [⟨1, [1], 0⟩, ⟨1, [1], 1⟩]⟩).2.rows.map
          (fun r => r.user_id)).dedup).length *
        (((⟨["A"], [⟨1, [1], 0⟩, ⟨1, [1], 1⟩]⟩ : WideTable)).itemCols.length + 1)) :=
  long_format_transform_row_count ⟨["A"], [⟨1, [1], 0⟩, ⟨1, [1], 1⟩]⟩ (by decide)

end Sber
